import Mathlib

/-!
Verification of the pingGraphGo measurement core (src/main.go).

The probe loop `ping`, the statistics function `updateStats` and the startup
validation of `main` are embedded shallowly.  `float64` latencies are modelled
by exact rationals (ℚ): every claim under scrutiny is about the algorithmic
structure of the computations (which samples are filtered, which counters are
incremented, which divisor is used), not about rounding, so exact arithmetic
is the faithful reading.  `time.Duration.Milliseconds()` values and the
configured timeouts embed into ℚ losslessly.
-/

namespace PingGraph

/-- Outcome of one iteration of the probe loop in `ping` (main.go:238-344).
Each constructor corresponds to one branch of the loop body:
`marshalFail` to the fatal `msg.Marshal` error (main.go:263-268),
`sendFail` to a `conn.WriteTo` error (main.go:273-282),
`timeoutExpired` to a read-deadline expiry (main.go:293-299),
`recvError` to any other `ReadFrom` error (main.go:300-306),
`parseFail` to an `icmp.ParseMessage` error (main.go:315-321),
`nonEchoReply` to a parsed message whose type is not an echo reply
(main.go:333-338), and `echoReply delay` to a parsed echo reply received
after `delay` milliseconds (main.go:323-332). -/
inductive CycleEvent where
  | marshalFail
  | sendFail
  | timeoutExpired
  | recvError
  | parseFail
  | nonEchoReply
  | echoReply (delay : ℚ)
deriving DecidableEq

/-- The mutable state threaded through the probe loop: the shared `times` and
`pings` slices, the `pingCount` counter and the shared `running` flag. -/
structure PingState where
  times : List ℚ
  pings : List ℕ
  pingCount : ℕ
  running : Bool
deriving DecidableEq

/-- The state at `main` startup: empty slices, `pingCount = 0`, `running = true`
(main.go:51-56). -/
def initState : PingState := ⟨[], [], 0, true⟩

/-- The value a cycle records into `times`, read off the branches of the loop
body: `none` for the fatal marshal failure (nothing is appended, the engine
stops), `some delay` for a parsed echo reply (main.go:325-329, recorded even
when `delay` exceeds the timeout — the code only prints a warning at
main.go:330-332), and `some deadTimeout` for every other branch
(main.go:277, 297, 303, 319, 336). -/
def recordedValue (deadTimeout : ℚ) : CycleEvent → Option ℚ
  | .marshalFail => none
  | .sendFail => some deadTimeout
  | .timeoutExpired => some deadTimeout
  | .recvError => some deadTimeout
  | .parseFail => some deadTimeout
  | .nonEchoReply => some deadTimeout
  | .echoReply delay => some delay

/-- One iteration of the probe loop body (main.go:238-343): `pingCount` is
incremented first (main.go:239); a fatal marshal failure clears `running` and
returns without appending; every other branch appends exactly one entry to
`times` and the current `pingCount` to `pings` under the mutex. -/
def pingCycle (deadTimeout : ℚ) (s : PingState) (e : CycleEvent) : PingState :=
  let c := s.pingCount + 1
  match recordedValue deadTimeout e with
  | none => { s with pingCount := c, running := false }
  | some v => { s with pingCount := c, times := s.times ++ [v], pings := s.pings ++ [c] }

/-- The probe loop `for *running { ... }` (main.go:238-344), driven by a list
of per-cycle outcomes; it re-checks the `running` flag at the top of every
cycle and stops when it is false. -/
def pingRun (deadTimeout : ℚ) (s : PingState) : List CycleEvent → PingState
  | [] => s
  | e :: es => if s.running then pingRun deadTimeout (pingCycle deadTimeout s e) es else s

/-- The whole engine including the `icmp.ListenPacket` call (main.go:228-233):
a socket-open failure clears `running` and returns before any cycle runs. -/
def pingEngine (deadTimeout : ℚ) (socketOk : Bool) (s : PingState)
    (events : List CycleEvent) : PingState :=
  if socketOk then pingRun deadTimeout s events else { s with running := false }

/-- Left-fold summation, as the accumulation loops in `updateStats` do. -/
def sumQ (l : List ℚ) : ℚ := l.foldl (· + ·) 0

/-- The `validTimes` filter of `updateStats` (main.go:349-354): a sample is
valid iff it is not exactly equal to the `deadTimeout` sentinel. -/
def validTimes (times : List ℚ) (deadTimeout : ℚ) : List ℚ :=
  times.filter fun t => decide (t ≠ deadTimeout)

/-- `avgTime` (main.go:357-362): mean of the list when nonempty, else the
zero initialisation survives. -/
def avgOf (l : List ℚ) : ℚ :=
  if 0 < l.length then sumQ l / (l.length : ℚ) else 0

/-- `minTime` (main.go:364-373): seeded with element 0, then a scan over the
whole list taking the smaller value; 0 when the list is empty. -/
def minOf : List ℚ → ℚ
  | [] => 0
  | h :: t => (h :: t).foldl min h

/-- `maxTime` (main.go:364-373): same scan with the larger value. -/
def maxOf : List ℚ → ℚ
  | [] => 0
  | h :: t => (h :: t).foldl max h

/-- The radicand of `stdDev` (main.go:375-380): the code computes
`math.Sqrt(sumSquares / len)`; this is the quantity under the square root,
i.e. the population variance of the list. -/
def stdDevSqOf (l : List ℚ) : ℚ :=
  if 0 < l.length then
    sumQ (l.map fun t => (t - avgOf l) * (t - avgOf l)) / (l.length : ℚ)
  else 0

/-- `jitter` (main.go:382-389): sum of `|v[i] - v[i-1]|` for `i = 1 .. len-1`
divided by `len - 1`, when the list has more than one element; else 0. -/
def jitterOf (l : List ℚ) : ℚ :=
  if 1 < l.length then
    sumQ ((l.zip l.tail).map fun p => |p.2 - p.1|) / ((l.length - 1 : ℕ) : ℚ)
  else 0

/-- `timesGreaterThanTimeout` (main.go:393-398): counts samples with
`t > timeout && t != deadTimeout`. -/
def countTimeoutStrict (times : List ℚ) (timeout : ℤ) (deadTimeout : ℚ) : ℕ :=
  times.countP fun t => decide ((timeout : ℚ) < t ∧ t ≠ deadTimeout)

/-- `timesLost` (main.go:394-401): counts samples equal to the sentinel. -/
def countLost (times : List ℚ) (deadTimeout : ℚ) : ℕ :=
  times.countP fun t => decide (t = deadTimeout)

/-- `totalTimeout` (main.go:413-420): counts samples that take either of the
two incrementing branches of the run-length loop. -/
def countTimeoutTotal (times : List ℚ) (timeout : ℤ) (deadTimeout : ℚ) : ℕ :=
  times.countP fun t =>
    decide (((timeout : ℚ) ≤ t ∧ t ≠ deadTimeout) ∨ t = deadTimeout)

/-- One step of the `maxSequentialTimeout` loop (main.go:414-427), on the
accumulator `(maxSequentialTimeout, currentSequenceTimeout)`: the first two
branches extend the current run, the third folds the current run into the
maximum and resets it. -/
def seqStep (timeout : ℤ) (deadTimeout : ℚ) (acc : ℕ × ℕ) (t : ℚ) : ℕ × ℕ :=
  if (timeout : ℚ) ≤ t ∧ t ≠ deadTimeout then (acc.1, acc.2 + 1)
  else if t = deadTimeout then (acc.1, acc.2 + 1)
  else (if acc.1 < acc.2 then acc.2 else acc.1, 0)

/-- `maxSequentialTimeout` (main.go:410-430): the single pass followed by the
final fold of the still-open run into the maximum (main.go:428-430). -/
def maxSeqTimeoutOf (times : List ℚ) (timeout : ℤ) (deadTimeout : ℚ) : ℕ :=
  let r := times.foldl (seqStep timeout deadTimeout) (0, 0)
  if r.1 < r.2 then r.2 else r.1

/-- The numeric fields assembled by `updateStats` (main.go:347-436).
`stdDevSq` is the radicand of the displayed standard deviation (the code
applies `math.Sqrt` to exactly this quantity when formatting). -/
structure Stats where
  avgTime : ℚ
  maxTime : ℚ
  minTime : ℚ
  stdDevSq : ℚ
  jitter : ℚ
  pctTimeout : ℚ
  pctLost : ℚ
  totalN : ℕ
  totalTimeout : ℕ
  maxSequentialTimeout : ℕ
  timesLost : ℕ
deriving DecidableEq

/-- `updateStats` (main.go:347-436): filter the valid samples, compute the
aggregate fields over them, and the percentage/count/run fields over the full
series, with the `len(*times) > 0` guard of main.go:405-408. -/
def updateStats (times : List ℚ) (timeout : ℤ) (deadTimeout : ℚ) : Stats :=
  let v := validTimes times deadTimeout
  { avgTime := avgOf v
    maxTime := maxOf v
    minTime := minOf v
    stdDevSq := stdDevSqOf v
    jitter := jitterOf v
    pctTimeout :=
      if 0 < times.length then
        (countTimeoutStrict times timeout deadTimeout : ℚ) / (times.length : ℚ) * 100
      else 0
    pctLost :=
      if 0 < times.length then
        (countLost times deadTimeout : ℚ) / (times.length : ℚ) * 100
      else 0
    totalN := times.length
    totalTimeout := countTimeoutTotal times timeout deadTimeout
    maxSequentialTimeout := maxSeqTimeoutOf times timeout deadTimeout
    timesLost := countLost times deadTimeout }

/-- The startup range check on the `-D` flag (main.go:39-42): the program
prints an error and exits non-zero iff `deadTimeout > 10000` or
`deadTimeout < timeout`. -/
def deadTimeoutRejected (deadTimeout : ℚ) (timeout : ℤ) : Bool :=
  decide (10000 < deadTimeout) || decide (deadTimeout < (timeout : ℚ))

/-- Modelled from the spec (§4.4 step 8): the longest-run statistic as the
spec words it — a single pass over the unfiltered series with a running
counter, incremented on every sample that is lost or has latency ≥ Timeout,
reset on any other sample, and an eagerly maintained maximum. -/
def specRunStep (timeout : ℤ) (deadTimeout : ℚ) (acc : ℕ × ℕ) (t : ℚ) : ℕ × ℕ :=
  if t = deadTimeout ∨ (timeout : ℚ) ≤ t then (max acc.1 (acc.2 + 1), acc.2 + 1)
  else (acc.1, 0)

/-- Modelled from the spec (§4.4 step 8): the longest contiguous run of
(lost or ≥ Timeout) samples, in original emission order. -/
def longestLostOrSlowRun (times : List ℚ) (timeout : ℤ) (deadTimeout : ℚ) : ℕ :=
  (times.foldl (specRunStep timeout deadTimeout) (0, 0)).1

/-- The two shared mutable resources of §5 of the design: the series
(`times`/`pings` slices) and the `running` flag. -/
inductive SharedResource where
  | series
  | runningFlag
deriving DecidableEq

/-- One textual access to a shared resource in src/main.go: the source line,
which resource it touches, whether it writes, and whether the access happens
between `mutex.Lock()` and `mutex.Unlock()`. -/
structure AccessSite where
  line : ℕ
  resource : SharedResource
  isWrite : Bool
  underMutex : Bool
deriving DecidableEq

/-- Every access to the shared series and the shared `running` flag in
src/main.go, outside the probe-loop appends, transcribed from the source:
line 112 (`running = false` in the signal goroutine), line 118
(`for running`), line 125 (`running = false` on the quit key), lines 144-145
(the `plotData` copy of `times`, inside `mutex.Lock()`/`Unlock()` at
143/146), line 169 and line 178 (`updateStats(&times, ...)` iterating
`times` after the mutex was released at 146), line 231 and line 266
(`*running = false` on listen/marshal failure), line 238 (`for *running`),
and the five mutex-guarded append blocks at lines 277, 297, 303, 319, 327
and 336. -/
def sharedAccessSites : List AccessSite :=
  [⟨112, .runningFlag, true, false⟩,
   ⟨118, .runningFlag, false, false⟩,
   ⟨125, .runningFlag, true, false⟩,
   ⟨144, .series, false, true⟩,
   ⟨169, .series, false, false⟩,
   ⟨178, .series, false, false⟩,
   ⟨231, .runningFlag, true, false⟩,
   ⟨238, .runningFlag, false, false⟩,
   ⟨266, .runningFlag, true, false⟩,
   ⟨277, .series, true, true⟩,
   ⟨297, .series, true, true⟩,
   ⟨303, .series, true, true⟩,
   ⟨319, .series, true, true⟩,
   ⟨327, .series, true, true⟩,
   ⟨336, .series, true, true⟩]

end PingGraph

namespace PingGraph

lemma pingCycle_nonfatal (deadTimeout : ℚ) (s : PingState) (e : CycleEvent)
    (h : e ≠ CycleEvent.marshalFail) :
    ∃ v, recordedValue deadTimeout e = some v ∧
      pingCycle deadTimeout s e =
        ⟨s.times ++ [v], s.pings ++ [s.pingCount + 1], s.pingCount + 1, s.running⟩ := by
  cases e with
  | marshalFail => exact absurd rfl h
  | sendFail => exact ⟨deadTimeout, rfl, rfl⟩
  | timeoutExpired => exact ⟨deadTimeout, rfl, rfl⟩
  | recvError => exact ⟨deadTimeout, rfl, rfl⟩
  | parseFail => exact ⟨deadTimeout, rfl, rfl⟩
  | nonEchoReply => exact ⟨deadTimeout, rfl, rfl⟩
  | echoReply d => exact ⟨d, rfl, rfl⟩

lemma pingRun_stopped (deadTimeout : ℚ) (s : PingState) (events : List CycleEvent)
    (h : s.running = false) : pingRun deadTimeout s events = s := by
  cases events with
  | nil => rfl
  | cons e es => simp [pingRun, h]

lemma pingRun_nonfatal (deadTimeout : ℚ) :
    ∀ (events : List CycleEvent) (s : PingState), s.running = true →
      (∀ e ∈ events, e ≠ CycleEvent.marshalFail) →
      (pingRun deadTimeout s events).times.length = s.times.length + events.length ∧
      (pingRun deadTimeout s events).pings =
        s.pings ++ List.range' (s.pingCount + 1) events.length ∧
      (pingRun deadTimeout s events).pingCount = s.pingCount + events.length ∧
      (pingRun deadTimeout s events).running = true := by
  intro events
  induction events with
  | nil => intro s hs _; simp [pingRun, hs]
  | cons e es ih =>
    intro s hs hne
    obtain ⟨v, _, hcycle⟩ :=
      pingCycle_nonfatal deadTimeout s e (hne e (List.mem_cons_self _ _))
    have hrun : pingRun deadTimeout s (e :: es) =
        pingRun deadTimeout (pingCycle deadTimeout s e) es := by
      simp [pingRun, hs]
    have hrunning : (pingCycle deadTimeout s e).running = true := by
      rw [hcycle]; exact hs
    obtain ⟨h1, h2, h3, h4⟩ := ih (pingCycle deadTimeout s e) hrunning
      (fun e' he' => hne e' (List.mem_cons_of_mem _ he'))
    rw [hcycle] at h1 h2 h3 h4
    rw [hrun, hcycle]
    refine ⟨?_, ?_, ?_, h4⟩
    · rw [h1]; simp; omega
    · rw [h2]
      simp [List.range'_succ, List.append_assoc]
    · rw [h3]; simp; omega

/-- Claim C1: every non-fatal probe cycle appends exactly one entry to
`times` and one matching entry to `pings`, whatever the outcome; after `N`
completed cycles the series has length `N`, the two lists have equal lengths,
and `pings` is exactly `1..N` in increasing, gapless order. -/
theorem C1_series_shape (deadTimeout : ℚ) (events : List CycleEvent)
    (hne : ∀ e ∈ events, e ≠ CycleEvent.marshalFail) :
    (pingRun deadTimeout initState events).times.length = events.length ∧
    (pingRun deadTimeout initState events).pings.length = events.length ∧
    (pingRun deadTimeout initState events).pings = List.range' 1 events.length := by
  obtain ⟨h1, h2, _, _⟩ := pingRun_nonfatal deadTimeout events initState rfl hne
  refine ⟨by simpa [initState] using h1, ?_, by simpa [initState] using h2⟩
  have : (pingRun deadTimeout initState events).pings = List.range' 1 events.length := by
    simpa [initState] using h2
  rw [this, List.length_range']

/-- Witness for C1 at a mixed outcome list: a send failure, a success and a
timeout give a series of length 3 with sequence numbers `[1, 2, 3]`. -/
theorem C1_series_shape_witness :
    (pingRun 500 initState
      [CycleEvent.sendFail, CycleEvent.echoReply 5, CycleEvent.timeoutExpired]).times.length = 3 ∧
    (pingRun 500 initState
      [CycleEvent.sendFail, CycleEvent.echoReply 5, CycleEvent.timeoutExpired]).pings = [1, 2, 3] := by
  have h := C1_series_shape 500
    [CycleEvent.sendFail, CycleEvent.echoReply 5, CycleEvent.timeoutExpired] (by decide)
  exact ⟨h.1, by rw [h.2.2]; rfl⟩

/-- Claim C7: in the CLASSIFY step, a parse failure or a non-echo-reply
message records the `deadTimeout` sentinel, while a parsed echo reply records
the measured duration itself even when it exceeds the timeout — it is never
reclassified as lost. -/
theorem C7_classify (deadTimeout d : ℚ) (timeout : ℤ) (s : PingState)
    (_hd : (timeout : ℚ) < d) :
    recordedValue deadTimeout (CycleEvent.echoReply d) = some d ∧
    (pingCycle deadTimeout s (CycleEvent.echoReply d)).times = s.times ++ [d] ∧
    (pingCycle deadTimeout s CycleEvent.parseFail).times = s.times ++ [deadTimeout] ∧
    (pingCycle deadTimeout s CycleEvent.nonEchoReply).times = s.times ++ [deadTimeout] := by
  exact ⟨rfl, rfl, rfl, rfl⟩

/-- Witness for C7: a 200 ms reply with a 150 ms timeout is recorded as
200, not as the 500 ms sentinel. -/
theorem C7_classify_witness :
    (pingCycle 500 initState (CycleEvent.echoReply 200)).times = [200] ∧
    (pingCycle 500 initState CycleEvent.parseFail).times = [500] := by
  have h := C7_classify 500 200 150 initState (by norm_num)
  exact ⟨by rw [h.2.1]; rfl, by rw [h.2.2.1]; rfl⟩

/-- Claim C9: a failed send records the sentinel and the engine continues to
the next cycle with `running` still true; a marshal failure clears `running`,
appends nothing, and stops the loop; a socket-open failure clears `running`
before any cycle; and no event other than a marshal failure clears the flag. -/
theorem C9_error_policy (deadTimeout : ℚ) (s : PingState)
    (events : List CycleEvent) (e : CycleEvent)
    (hrun : s.running = true) (hne : e ≠ CycleEvent.marshalFail) :
    (pingCycle deadTimeout s CycleEvent.sendFail).times = s.times ++ [deadTimeout] ∧
    (pingCycle deadTimeout s CycleEvent.sendFail).running = true ∧
    pingRun deadTimeout s (CycleEvent.sendFail :: events) =
      pingRun deadTimeout (pingCycle deadTimeout s CycleEvent.sendFail) events ∧
    (pingCycle deadTimeout s CycleEvent.marshalFail).running = false ∧
    (pingCycle deadTimeout s CycleEvent.marshalFail).times = s.times ∧
    pingRun deadTimeout s (CycleEvent.marshalFail :: events) =
      pingCycle deadTimeout s CycleEvent.marshalFail ∧
    (pingEngine deadTimeout false s events).running = false ∧
    (pingEngine deadTimeout false s events).times = s.times ∧
    (pingCycle deadTimeout s e).running = true := by
  obtain ⟨v, _, hcycle⟩ := pingCycle_nonfatal deadTimeout s e hne
  refine ⟨rfl, hrun, ?_, rfl, rfl, ?_, rfl, rfl, ?_⟩
  · simp [pingRun, hrun]
  · have hstop : pingRun deadTimeout (pingCycle deadTimeout s CycleEvent.marshalFail)
        events = pingCycle deadTimeout s CycleEvent.marshalFail :=
      pingRun_stopped deadTimeout _ events rfl
    simp [pingRun, hrun, hstop]
  · rw [hcycle]; exact hrun

/-- Witness for C9 at the initial state with a receive-error event. -/
theorem C9_error_policy_witness :
    (pingCycle 500 initState CycleEvent.sendFail).times = [500] ∧
    (pingCycle 500 initState CycleEvent.marshalFail).running = false ∧
    (pingCycle 500 initState CycleEvent.recvError).running = true := by
  have h := C9_error_policy 500 initState [] CycleEvent.recvError rfl (by decide)
  exact ⟨by rw [h.1]; rfl, h.2.2.2.1, h.2.2.2.2.2.2.2.2⟩

lemma lazyMax_eq (a b : ℕ) : (if a < b then b else a) = max a b := by
  split <;> omega

lemma seqStep_eq (timeout : ℤ) (deadTimeout : ℚ) (acc : ℕ × ℕ) (t : ℚ) :
    seqStep timeout deadTimeout acc t =
      if t = deadTimeout ∨ (timeout : ℚ) ≤ t then (acc.1, acc.2 + 1)
      else (max acc.1 acc.2, 0) := by
  unfold seqStep
  by_cases h1 : t = deadTimeout <;> by_cases h2 : (timeout : ℚ) ≤ t <;>
    simp [h1, h2, lazyMax_eq]

lemma seq_fold_spec (timeout : ℤ) (deadTimeout : ℚ) :
    ∀ (l : List ℚ) (m c : ℕ),
      (l.foldl (specRunStep timeout deadTimeout) (max m c, c)).1 =
        max (l.foldl (seqStep timeout deadTimeout) (m, c)).1
            (l.foldl (seqStep timeout deadTimeout) (m, c)).2 := by
  intro l
  induction l with
  | nil => intro m c; rfl
  | cons t ts ih =>
    intro m c
    rw [List.foldl_cons, List.foldl_cons, seqStep_eq]
    simp only [specRunStep]
    by_cases h : t = deadTimeout ∨ (timeout : ℚ) ≤ t
    · simp only [if_pos h]
      have hmax : max (max m c) (c + 1) = max m (c + 1) := by omega
      rw [hmax]
      exact ih m (c + 1)
    · simp only [if_neg h]
      have := ih (max m c) 0
      simpa using this

/-- Claim C2: the `maxSequentialTimeout` statistic equals the length of the
longest contiguous run, in original emission order over the unfiltered
series, of samples that are either lost or have latency ≥ Timeout (the
spec-modelled `longestLostOrSlowRun`). -/
theorem C2_longest_run (times : List ℚ) (timeout : ℤ) (deadTimeout : ℚ)
    (_h : (timeout : ℚ) ≤ deadTimeout) :
    (updateStats times timeout deadTimeout).maxSequentialTimeout =
      longestLostOrSlowRun times timeout deadTimeout := by
  show maxSeqTimeoutOf times timeout deadTimeout = _
  unfold maxSeqTimeoutOf longestLostOrSlowRun
  have h := seq_fold_spec timeout deadTimeout times 0 0
  simp only [Nat.max_self] at h
  rw [h]
  rcases times.foldl (seqStep timeout deadTimeout) (0, 0) with ⟨a, b⟩
  simp only
  split <;> omega

/-- Witness for C2 on the spec's own example: the series
`[lost, 5, lost, lost, 5]` with `Timeout = 100` and `DeadTimeout = 500` has
longest run 2 (the two consecutive losses), not 3. -/
theorem C2_longest_run_witness :
    (updateStats [(500 : ℚ), 5, 500, 500, 5] 100 500).maxSequentialTimeout =
      longestLostOrSlowRun [(500 : ℚ), 5, 500, 500, 5] 100 500 ∧
    (updateStats [(500 : ℚ), 5, 500, 500, 5] 100 500).maxSequentialTimeout = 2 := by
  have h := C2_longest_run [(500 : ℚ), 5, 500, 500, 5] 100 500 (by norm_num)
  exact ⟨h, by rw [h]; rfl⟩

lemma foldl_min_choice (l : List ℚ) : ∀ a : ℚ, l.foldl min a = a ∨ l.foldl min a ∈ l := by
  induction l with
  | nil => intro a; exact Or.inl rfl
  | cons h t ih =>
    intro a
    rw [List.foldl_cons]
    rcases ih (min a h) with hc | hc
    · rw [hc]
      rcases min_choice a h with h1 | h1
      · exact Or.inl h1
      · exact Or.inr (by rw [h1]; exact List.mem_cons_self _ _)
    · exact Or.inr (List.mem_cons_of_mem _ hc)

lemma foldl_min_le_init (l : List ℚ) : ∀ a : ℚ, l.foldl min a ≤ a := by
  induction l with
  | nil => intro a; exact le_refl a
  | cons h t ih =>
    intro a
    rw [List.foldl_cons]
    exact le_trans (ih (min a h)) (min_le_left a h)

lemma foldl_min_le_mem (l : List ℚ) : ∀ (a x : ℚ), x ∈ l → l.foldl min a ≤ x := by
  induction l with
  | nil => intro a x hx; exact absurd hx (List.not_mem_nil x)
  | cons h t ih =>
    intro a x hx
    rw [List.foldl_cons]
    rcases List.mem_cons.mp hx with rfl | hx
    · exact le_trans (foldl_min_le_init t (min a x)) (min_le_right a x)
    · exact ih (min a h) x hx

lemma foldl_max_choice (l : List ℚ) : ∀ a : ℚ, l.foldl max a = a ∨ l.foldl max a ∈ l := by
  induction l with
  | nil => intro a; exact Or.inl rfl
  | cons h t ih =>
    intro a
    rw [List.foldl_cons]
    rcases ih (max a h) with hc | hc
    · rw [hc]
      rcases max_choice a h with h1 | h1
      · exact Or.inl h1
      · exact Or.inr (by rw [h1]; exact List.mem_cons_self _ _)
    · exact Or.inr (List.mem_cons_of_mem _ hc)

lemma foldl_max_ge_init (l : List ℚ) : ∀ a : ℚ, a ≤ l.foldl max a := by
  induction l with
  | nil => intro a; exact le_refl a
  | cons h t ih =>
    intro a
    rw [List.foldl_cons]
    exact le_trans (le_max_left a h) (ih (max a h))

lemma foldl_max_ge_mem (l : List ℚ) : ∀ (a x : ℚ), x ∈ l → x ≤ l.foldl max a := by
  induction l with
  | nil => intro a x hx; exact absurd hx (List.not_mem_nil x)
  | cons h t ih =>
    intro a x hx
    rw [List.foldl_cons]
    rcases List.mem_cons.mp hx with rfl | hx
    · exact le_trans (le_max_right a x) (foldl_max_ge_init t (max a x))
    · exact ih (max a h) x hx

lemma minOf_mem (l : List ℚ) (h : l ≠ []) : minOf l ∈ l := by
  cases l with
  | nil => exact absurd rfl h
  | cons a t =>
    show (a :: t).foldl min a ∈ a :: t
    rw [List.foldl_cons, min_self]
    rcases foldl_min_choice t a with hc | hc
    · rw [hc]; exact List.mem_cons_self _ _
    · exact List.mem_cons_of_mem _ hc

lemma minOf_le (l : List ℚ) (x : ℚ) (hx : x ∈ l) : minOf l ≤ x := by
  cases l with
  | nil => exact absurd hx (List.not_mem_nil x)
  | cons a t =>
    show (a :: t).foldl min a ≤ x
    rw [List.foldl_cons, min_self]
    rcases List.mem_cons.mp hx with rfl | hx
    · exact foldl_min_le_init t x
    · exact foldl_min_le_mem t a x hx

lemma maxOf_mem (l : List ℚ) (h : l ≠ []) : maxOf l ∈ l := by
  cases l with
  | nil => exact absurd rfl h
  | cons a t =>
    show (a :: t).foldl max a ∈ a :: t
    rw [List.foldl_cons, max_self]
    rcases foldl_max_choice t a with hc | hc
    · rw [hc]; exact List.mem_cons_self _ _
    · exact List.mem_cons_of_mem _ hc

lemma maxOf_ge (l : List ℚ) (x : ℚ) (hx : x ∈ l) : x ≤ maxOf l := by
  cases l with
  | nil => exact absurd hx (List.not_mem_nil x)
  | cons a t =>
    show x ≤ (a :: t).foldl max a
    rw [List.foldl_cons, max_self]
    rcases List.mem_cons.mp hx with rfl | hx
    · exact foldl_max_ge_init t x
    · exact foldl_max_ge_mem t a x hx

/-- Claim C4: over a nonempty valid sublist, `updateStats` computes the
arithmetic mean of the valid samples, their minimum and maximum, and a
standard deviation whose radicand is the sum of squared deviations divided by
the count of valid samples (population form, not count − 1); when the valid
sublist is empty all of these derived fields are 0. -/
theorem C4_aggregate_stats (ts : List ℚ) (timeout : ℤ) (deadTimeout : ℚ) :
    (validTimes ts deadTimeout ≠ [] →
      (updateStats ts timeout deadTimeout).avgTime =
        sumQ (validTimes ts deadTimeout) / ((validTimes ts deadTimeout).length : ℚ) ∧
      (updateStats ts timeout deadTimeout).minTime ∈ validTimes ts deadTimeout ∧
      (∀ x ∈ validTimes ts deadTimeout, (updateStats ts timeout deadTimeout).minTime ≤ x) ∧
      (updateStats ts timeout deadTimeout).maxTime ∈ validTimes ts deadTimeout ∧
      (∀ x ∈ validTimes ts deadTimeout, x ≤ (updateStats ts timeout deadTimeout).maxTime) ∧
      (updateStats ts timeout deadTimeout).stdDevSq =
        sumQ ((validTimes ts deadTimeout).map fun t =>
          (t - (updateStats ts timeout deadTimeout).avgTime) *
            (t - (updateStats ts timeout deadTimeout).avgTime)) /
          ((validTimes ts deadTimeout).length : ℚ)) ∧
    ((validTimes ts deadTimeout = [] →
      (updateStats ts timeout deadTimeout).avgTime = 0 ∧
      (updateStats ts timeout deadTimeout).minTime = 0 ∧
      (updateStats ts timeout deadTimeout).maxTime = 0 ∧
      (updateStats ts timeout deadTimeout).stdDevSq = 0 ∧
      (updateStats ts timeout deadTimeout).jitter = 0) ∧
    (updateStats [(10 : ℚ), 20, 30] 150 500).avgTime = 20 ∧
    (updateStats [(10 : ℚ), 20, 30] 150 500).minTime = 10 ∧
    (updateStats [(10 : ℚ), 20, 30] 150 500).maxTime = 30 ∧
    (updateStats [(10 : ℚ), 20, 30] 150 500).stdDevSq = 200 / 3) := by
  have hv : validTimes [(10 : ℚ), 20, 30] 500 = [10, 20, 30] := by decide
  refine ⟨?_, ?_, ?_, ?_, ?_, ?_⟩
  · intro h
    have hpos : 0 < (validTimes ts deadTimeout).length := List.length_pos.mpr h
    refine ⟨?_, minOf_mem _ h, fun x hx => minOf_le _ x hx,
      maxOf_mem _ h, fun x hx => maxOf_ge _ x hx, ?_⟩
    · show avgOf (validTimes ts deadTimeout) = _
      rw [avgOf, if_pos hpos]
    · show stdDevSqOf (validTimes ts deadTimeout) = _
      rw [stdDevSqOf, if_pos hpos]
      rfl
  · intro h
    refine ⟨?_, ?_, ?_, ?_, ?_⟩ <;>
      simp [updateStats, avgOf, minOf, maxOf, stdDevSqOf, jitterOf, h]
  · norm_num [updateStats, hv, avgOf, sumQ]
  · norm_num [updateStats, hv, minOf, min_def]
  · norm_num [updateStats, hv, maxOf, max_def]
  · norm_num [updateStats, hv, stdDevSqOf, avgOf, sumQ]

/-- Witness for C4 on the spec's example: valid latencies `[10, 20, 30]` give
average 20, a minimum lying in the valid list, and the empty series gives 0. -/
theorem C4_aggregate_stats_witness :
    validTimes [(10 : ℚ), 20, 30] 500 ≠ [] ∧
    (updateStats [(10 : ℚ), 20, 30] 150 500).avgTime = 20 ∧
    (updateStats [(10 : ℚ), 20, 30] 150 500).minTime ∈ validTimes [(10 : ℚ), 20, 30] 500 ∧
    (updateStats [] 150 500).avgTime = 0 := by
  have hne : validTimes [(10 : ℚ), 20, 30] 500 ≠ [] := by decide
  have h := C4_aggregate_stats [(10 : ℚ), 20, 30] 150 500
  exact ⟨hne, h.2.2.1, (h.1 hne).2.1,
    ((C4_aggregate_stats ([] : List ℚ) 150 500).2.1 rfl).1⟩

/-- Claim C3: when the valid sublist has at least two elements, the jitter is
the sum of absolute differences of consecutive elements of the filtered valid
list (adjacency in the filtered list, not the original series) divided by the
number of such differences. -/
theorem C3_jitter (ts : List ℚ) (timeout : ℤ) (deadTimeout : ℚ)
    (h : 2 ≤ (validTimes ts deadTimeout).length) :
    (updateStats ts timeout deadTimeout).jitter =
      sumQ (((validTimes ts deadTimeout).zip (validTimes ts deadTimeout).tail).map
        fun p => |p.2 - p.1|) /
        (((validTimes ts deadTimeout).length - 1 : ℕ) : ℚ) ∧
    (updateStats [(10 : ℚ), 500, 20, 30] 150 500).jitter = 10 := by
  constructor
  · show jitterOf (validTimes ts deadTimeout) = _
    rw [jitterOf, if_pos (by omega)]
  · have hv : validTimes [(10 : ℚ), 500, 20, 30] 500 = [10, 20, 30] := by decide
    norm_num [updateStats, hv, jitterOf, sumQ]

/-- Witness for C3 with an interleaved loss: the series `[10, lost, 20, 30]`
has valid latencies `[10, 20, 30]` (length ≥ 2) and jitter
`mean(|20-10|, |30-20|) = 10`, computed over the filtered list's adjacency. -/
theorem C3_jitter_witness :
    2 ≤ (validTimes [(10 : ℚ), 500, 20, 30] 500).length ∧
    (updateStats [(10 : ℚ), 500, 20, 30] 150 500).jitter = 10 := by
  have h := C3_jitter [(10 : ℚ), 500, 20, 30] 150 500 (by decide)
  exact ⟨by decide, h.2⟩

lemma countTimeoutStrict_eq (ts : List ℚ) (timeout : ℤ) (deadTimeout : ℚ) :
    (validTimes ts deadTimeout).countP (fun t => decide ((timeout : ℚ) < t)) =
      countTimeoutStrict ts timeout deadTimeout := by
  unfold validTimes countTimeoutStrict
  rw [List.countP_filter]
  simp [Bool.decide_and]

/-- Claim C5: the exceeding-Timeout percentage is the count of valid samples
with latency strictly above Timeout divided by the total number of samples,
times 100; the lost percentage is the count of sentinel samples divided by the
total, times 100; both are 0 when the series is empty. -/
theorem C5_percentages (ts : List ℚ) (timeout : ℤ) (deadTimeout : ℚ) :
    (0 < ts.length →
      (updateStats ts timeout deadTimeout).pctTimeout =
        ((validTimes ts deadTimeout).countP (fun t => decide ((timeout : ℚ) < t)) : ℚ) /
          (ts.length : ℚ) * 100 ∧
      (updateStats ts timeout deadTimeout).pctLost =
        ((ts.countP fun t => decide (t = deadTimeout)) : ℚ) / (ts.length : ℚ) * 100) ∧
    ((ts.length = 0 →
      (updateStats ts timeout deadTimeout).pctTimeout = 0 ∧
      (updateStats ts timeout deadTimeout).pctLost = 0) ∧
    (updateStats [(10 : ℚ), 500, 200] 150 500).pctTimeout = 100 / 3 ∧
    (updateStats [(10 : ℚ), 500, 200] 150 500).pctLost = 100 / 3) := by
  refine ⟨?_, ?_, ?_, ?_⟩
  · intro h
    constructor
    · show (if 0 < ts.length then
          (countTimeoutStrict ts timeout deadTimeout : ℚ) / (ts.length : ℚ) * 100
        else 0) = _
      rw [if_pos h, countTimeoutStrict_eq]
    · show (if 0 < ts.length then
          (countLost ts deadTimeout : ℚ) / (ts.length : ℚ) * 100 else 0) = _
      rw [if_pos h]
      rfl
  · intro h
    constructor
    · show (if 0 < ts.length then
          (countTimeoutStrict ts timeout deadTimeout : ℚ) / (ts.length : ℚ) * 100
        else 0) = 0
      rw [if_neg (by omega)]
    · show (if 0 < ts.length then
          (countLost ts deadTimeout : ℚ) / (ts.length : ℚ) * 100 else 0) = 0
      rw [if_neg (by omega)]
  · have hc : countTimeoutStrict [(10 : ℚ), 500, 200] 150 500 = 1 := by decide
    norm_num [updateStats, hc]
  · have hc : countLost [(10 : ℚ), 500, 200] 500 = 1 := by decide
    norm_num [updateStats, hc]

/-- Witness for C5: in `[10, lost, 200]` with `Timeout = 150`, one valid
sample exceeds 150 and one sample is lost, so both percentages are 100/3. -/
theorem C5_percentages_witness :
    0 < ([(10 : ℚ), 500, 200] : List ℚ).length ∧
    (updateStats [(10 : ℚ), 500, 200] 150 500).pctTimeout = 100 / 3 ∧
    (updateStats [(10 : ℚ), 500, 200] 150 500).pctLost = 100 / 3 := by
  have h := C5_percentages [(10 : ℚ), 500, 200] 150 500
  have h0 := h.1 (by decide)
  exact ⟨by decide, h.2.2.1, h.2.2.2⟩

/-- Claim C6: `updateStats` classifies a sample as valid exactly when its
value differs from the `DeadTimeout` sentinel, so a genuinely measured
latency numerically equal to `DeadTimeout` (recorded as such by the probe
loop, see the last conjuncts) is excluded from the valid set and counted as
lost, indistinguishably from a true loss. -/
theorem C6_sentinel_aliasing (ts : List ℚ) (deadTimeout x : ℚ) (timeout : ℤ) :
    (x ∈ validTimes ts deadTimeout ↔ x ∈ ts ∧ x ≠ deadTimeout) ∧
    (updateStats ts timeout deadTimeout).timesLost =
      ts.countP (fun t => decide (t = deadTimeout)) ∧
    (pingRun deadTimeout initState [CycleEvent.echoReply deadTimeout]).times =
      [deadTimeout] ∧
    validTimes (pingRun deadTimeout initState
      [CycleEvent.echoReply deadTimeout]).times deadTimeout = [] ∧
    (updateStats (pingRun deadTimeout initState
      [CycleEvent.echoReply deadTimeout]).times timeout deadTimeout).timesLost = 1 := by
  refine ⟨?_, rfl, rfl, ?_, ?_⟩
  · simp [validTimes, List.mem_filter]
  · show validTimes [deadTimeout] deadTimeout = []
    simp [validTimes]
  · show countLost [deadTimeout] deadTimeout = 1
    simp [countLost]

/-- Claim C8: at startup, the configuration is refused exactly when
`DeadTimeout > 10000` or `DeadTimeout < Timeout`; with `Timeout = 150` the
check rejects `DeadTimeout = 100` and `DeadTimeout = 20000` and accepts
`DeadTimeout = 500`. -/
theorem C8_startup_validation :
    (∀ (deadTimeout : ℚ) (timeout : ℤ),
      deadTimeoutRejected deadTimeout timeout = true ↔
        (10000 < deadTimeout ∨ deadTimeout < (timeout : ℚ))) ∧
    deadTimeoutRejected 100 150 = true ∧
    deadTimeoutRejected 20000 150 = true ∧
    deadTimeoutRejected 500 150 = false := by
  refine ⟨?_, by decide, by decide, by decide⟩
  intro d t
  simp [deadTimeoutRejected]

/-- Claim C10 fails on the code: not every access to the shared series and
the shared `running` flag is under the mutex. The render loop iterates the
shared `times` slice in `updateStats` after releasing the mutex (lines 169
and 178), and all six accesses to the `running` flag are made with no lock
held; only the append blocks and the `plotData` copy are guarded. This
theorem evaluates the access table at those failing sites. -/
theorem C10_unsynchronized_access :
    ((sharedAccessSites.filter fun a => !a.underMutex).map AccessSite.line) =
      [112, 118, 125, 169, 178, 231, 238, 266] ∧
    (∃ a ∈ sharedAccessSites,
      a.resource = SharedResource.series ∧ a.underMutex = false) ∧
    (∃ a ∈ sharedAccessSites,
      a.resource = SharedResource.runningFlag ∧ a.isWrite = true ∧
        a.underMutex = false) := by
  refine ⟨rfl, ?_, ?_⟩ <;> decide

end PingGraph
